import Mathlib

/-!
Verification of the Bless points tracker core.

A shallow embedding, in Lean 4, of the delta-reconstruction and
idempotent-persistence pipeline of `bless_points_tracker.py`:

* `calculate_daily_uptime` — cumulative earnings records → daily deltas;
* `save_to_database` — summary/daily document construction and the
  write operations it issues;
* the MongoDB `replace_one(filter, doc, upsert=True)` semantics used for
  persistence, over a store that the unique indexes of `setup_database`
  keep at one document per key;
* `process_account` — the bounded-retry fetch→compute→persist loop.

Machine-level conventions: Python integers are unbounded, so counters are
embedded as `Int` (`Nat` where the source value is a length or a count);
date strings are compared by Unicode code point exactly as Python compares
`str`, via an executable lexicographic comparison on `List Char`; Python's
stable `sorted` is embedded as `List.insertionSort`, a stable sort for the
same key order.  Python floats are IEEE-754 binary64 values: the model
(`B64`, `roundB64` below) holds each float exactly as the dyadic rational
it denotes and rounds the exact result of every operation to the nearest
binary64 value, ties to even; `int(x)` on a float truncates toward zero
and `round(x, 2)` is the half-even decimal rounding of the float's exact
value, held in hundredths.  The one shortcut: the `*_hours` fields'
`round(x / 60, 2)` is computed from the exact quotient `x / 60` rather
than the float `fl(x / 60)`; the two agree for every counter of magnitude
below about `4·10^14` (half-hundredth boundaries lie at least `1/600`
from `x / 60`, farther than the float's error), so this is exact on any
reachable value.
-/

namespace BlessPoints

/-! ## Lexicographic comparison of date strings

Python compares `str` values code point by code point, with a shorter
string that is a prefix of a longer one comparing smaller.  `charsLe` is
that comparison (non-strict) on the underlying character lists. -/

/-- Code-point lexicographic `≤` on character lists, as Python compares
strings. -/
def charsLe : List Char → List Char → Bool
  | [], _ => true
  | _ :: _, [] => false
  | a :: as, b :: bs =>
    if a < b then true
    else if b < a then false
    else charsLe as bs

/-- Python's `s1 <= s2` on strings. -/
def dateLe (s₁ s₂ : String) : Bool :=
  charsLe s₁.data s₂.data

theorem charsLe_total : ∀ as bs : List Char, charsLe as bs = true ∨ charsLe bs as = true
  | [], _ => Or.inl rfl
  | _ :: _, [] => Or.inr rfl
  | a :: as, b :: bs => by
    by_cases hab : a < b
    · exact Or.inl (by simp [charsLe, hab])
    · by_cases hba : b < a
      · exact Or.inr (by simp [charsLe, hba, asymm hba])
      · rcases charsLe_total as bs with h | h
        · exact Or.inl (by simp [charsLe, hab, hba, h])
        · exact Or.inr (by simp [charsLe, hab, hba, h])

theorem charsLe_refl (as : List Char) : charsLe as as = true := by
  rcases charsLe_total as as with h | h <;> exact h

theorem charsLe_trans :
    ∀ as bs cs : List Char,
      charsLe as bs = true → charsLe bs cs = true → charsLe as cs = true
  | [], _, _, _, _ => rfl
  | _ :: _, [], _, h, _ => by simp [charsLe] at h
  | _ :: _, _ :: _, [], _, h => by simp [charsLe] at h
  | a :: as, b :: bs, c :: cs, h₁, h₂ => by
    simp only [charsLe] at h₁ h₂ ⊢
    rcases lt_trichotomy a b with hab | hab | hab
    · rcases lt_trichotomy b c with hbc | hbc | hbc
      · simp [lt_trans hab hbc]
      · subst hbc; simp [hab]
      · rw [if_neg (asymm hbc), if_pos hbc] at h₂; exact absurd h₂ (by simp)
    · subst hab
      rcases lt_trichotomy a c with hac | hac | hac
      · simp [hac]
      · subst hac
        rw [if_neg (lt_irrefl a), if_neg (lt_irrefl a)] at h₁ h₂ ⊢
        exact charsLe_trans as bs cs h₁ h₂
      · rw [if_neg (asymm hac), if_pos hac] at h₂; exact absurd h₂ (by simp)
    · rw [if_neg (asymm hab), if_pos hab] at h₁; exact absurd h₁ (by simp)

theorem charsLe_antisymm :
    ∀ as bs : List Char, charsLe as bs = true → charsLe bs as = true → as = bs
  | [], [], _, _ => rfl
  | [], _ :: _, _, h => by simp [charsLe] at h
  | _ :: _, [], h, _ => by simp [charsLe] at h
  | a :: as, b :: bs, h₁, h₂ => by
    simp only [charsLe] at h₁ h₂
    rcases lt_trichotomy a b with hab | hab | hab
    · rw [if_neg (asymm hab), if_pos hab] at h₂; exact absurd h₂ (by simp)
    · subst hab
      rw [if_neg (lt_irrefl a), if_neg (lt_irrefl a)] at h₁ h₂
      rw [charsLe_antisymm as bs h₁ h₂]
    · rw [if_neg (asymm hab), if_pos hab] at h₁; exact absurd h₁ (by simp)

theorem dateLe_total (s₁ s₂ : String) : dateLe s₁ s₂ = true ∨ dateLe s₂ s₁ = true :=
  charsLe_total s₁.data s₂.data

theorem dateLe_trans {s₁ s₂ s₃ : String}
    (h₁ : dateLe s₁ s₂ = true) (h₂ : dateLe s₂ s₃ = true) : dateLe s₁ s₃ = true :=
  charsLe_trans s₁.data s₂.data s₃.data h₁ h₂

theorem dateLe_antisymm {s₁ s₂ : String}
    (h₁ : dateLe s₁ s₂ = true) (h₂ : dateLe s₂ s₁ = true) : s₁ = s₂ :=
  String.ext (charsLe_antisymm s₁.data s₂.data h₁ h₂)

/-! ## Data model -/

/-- One element of the earnings-history list returned by the earnings API:
cumulative reward counters for one calendar day
(`record.get('date')`, `record.get('baseReward', 0)`, …). -/
structure EarningsRecord where
  date : String
  baseReward : Int
  totalReward : Int
  referralReward : Int
deriving DecidableEq, Repr

/-- The dictionary appended to `daily_uptime` by `calculate_daily_uptime`
for one input record.  The `*_hours` fields hold `round(x / 60, 2)` in
hundredths (an exact integer number of hundredths). -/
structure DailyUptimeRecord where
  date : String
  daily_base_minutes : Int
  daily_total_minutes : Int
  daily_referral_minutes : Int
  daily_base_hours : Int
  daily_total_hours : Int
  cumulative_base_minutes : Int
  cumulative_total_minutes : Int
  cumulative_referral_minutes : Int
deriving DecidableEq, Repr

/-- Round-half-to-even of the exact quotient `num / den` (`den > 0`), the
rounding Python's `round` performs on an exactly represented value. -/
def roundHalfEven (num den : Int) : Int :=
  let q := num.fdiv den
  let r := num.fmod den
  if 2 * r < den then q
  else if den < 2 * r then q + 1
  else if q % 2 = 0 then q else q + 1

/-- Python's `round(x / 60, 2)` for an integer `x`, in hundredths,
computed on the exact quotient; this equals the binary64 computation
for `|x|` below about `4·10^14` (see the header note). -/
def round2Of60th (x : Int) : Int :=
  roundHalfEven (100 * x) 60

/-! ## DeltaCalculator: `calculate_daily_uptime` -/

/-- The key order of `sorted(uptime_records, key=lambda x: x.get('date', ''))`:
compare records by their date strings. -/
def recordLe (a b : EarningsRecord) : Prop :=
  dateLe a.date b.date = true

instance : DecidableRel recordLe := fun a b =>
  inferInstanceAs (Decidable (dateLe a.date b.date = true))

instance : IsTotal EarningsRecord recordLe :=
  ⟨fun a b => dateLe_total a.date b.date⟩

instance : IsTrans EarningsRecord recordLe :=
  ⟨fun _ _ _ h₁ h₂ => dateLe_trans h₁ h₂⟩

/-- The sort `sorted(uptime_records, key=lambda x: x.get('date', ''))`: a
stable sort of the records by date, ascending. -/
def sortRecords (uptime_records : List EarningsRecord) : List EarningsRecord :=
  uptime_records.insertionSort recordLe

/-- The body of the loop in `calculate_daily_uptime`: the output record
appended for one input record, given the running previous counters. -/
def stepRecord (prev_base prev_total prev_referral : Int)
    (record : EarningsRecord) : DailyUptimeRecord :=
  let current_base := record.baseReward
  let current_total := record.totalReward
  let current_referral := record.referralReward
  let daily_base := max 0 (current_base - prev_base)
  let daily_total := max 0 (current_total - prev_total)
  let daily_ref := max 0 (current_referral - prev_referral)
  { date := record.date
    daily_base_minutes := daily_base
    daily_total_minutes := daily_total
    daily_referral_minutes := daily_ref
    daily_base_hours := round2Of60th daily_base
    daily_total_hours := round2Of60th daily_total
    cumulative_base_minutes := current_base
    cumulative_total_minutes := current_total
    cumulative_referral_minutes := current_referral }

/-- The `for record in sorted_records` loop: each record produces one
output dictionary, and the previous counters advance to the current
values whether or not they regressed. -/
def deltaLoop (prev_base prev_total prev_referral : Int) :
    List EarningsRecord → List DailyUptimeRecord
  | [] => []
  | record :: rest =>
    stepRecord prev_base prev_total prev_referral record ::
      deltaLoop record.baseReward record.totalReward record.referralReward rest

/-- The function `calculate_daily_uptime(uptime_records, user_id)`: empty input returns
`[]`; otherwise the records are sorted by date and the running-baseline
deltas are emitted, with all three previous counters initialized to 0.
(The `user_id` argument is taken and ignored, as in the source.) -/
def calculate_daily_uptime (uptime_records : List EarningsRecord)
    (user_id : String) : List DailyUptimeRecord :=
  if uptime_records.isEmpty then []
  else deltaLoop 0 0 0 (sortRecords uptime_records)

/-! ## SummaryBuilder: the summary document of `save_to_database` -/

/-- The overview snapshot is a JSON object; `overview_data.get(k, 0)`
reads a field with default 0.  Keys are unique in a Python dict, so the
first binding is the binding. -/
abbrev OverviewData := List (String × Int)

/-- Python's `d.get(k, 0)` on a dict. -/
def dictGet (d : OverviewData) (k : String) : Int :=
  match d.find? (fun p => p.1 == k) with
  | some p => p.2
  | none => 0

/-- The `participation_time_breakdown` value stored in the summary document. -/
structure TimeBreakdown where
  days : Int
  hours : Int
  minutes : Int
deriving DecidableEq, Repr

/-! Python computes the breakdown (and its rounded hour/day figures)
with IEEE-754 binary64 (`float`) arithmetic.  Every finite binary64
value is a dyadic rational; the model below carries each float exactly
as `num / den` with `den` a positive power of two, and rounds the exact
result of every operation to the nearest binary64 value, ties to even,
with the subnormal quantum `2^-1074` — exactly IEEE round-to-nearest.
Overflow to infinity needs a magnitude of `2^1024` and is not modeled:
no reward counter comes anywhere near it. -/

/-- Fuelled binary logarithm (`ilog2Aux n n` computes `⌊log₂ n⌋` for
`n ≥ 1`; the fuel `n` always suffices). -/
def ilog2Aux : Nat → Nat → Nat
  | 0, _ => 0
  | fuel + 1, n => if 2 ≤ n then ilog2Aux fuel (n / 2) + 1 else 0

/-- Binary logarithm, rounded down, of a positive natural. -/
def ilog2 (n : Nat) : Nat := ilog2Aux n n

/-- For `a, den > 0`, the exponent `e` with `2^e ≤ a / den < 2^(e+1)`. -/
def ratLog2 (a den : Int) : Int :=
  if den ≤ a then (ilog2 (a.tdiv den).toNat : Int)
  else
    let f := ilog2 (den.tdiv a).toNat
    if a * 2 ^ f = den then -(f : Int) else -(f : Int) - 1

/-- A finite IEEE-754 binary64 value, held exactly as the dyadic
rational `num / den` (`den` a positive power of two). -/
structure B64 where
  num : Int
  den : Int
deriving DecidableEq, Repr

/-- Round the exact rational `num / den` (`den > 0`) to the nearest
binary64 value, ties to even: the significand is the half-even rounding
of `|num/den| / 2^p` at the quantum exponent
`p = max (⌊log₂ |num/den|⌋ − 52) (−1074)` (52 fraction bits; `−1074`
is the subnormal quantum). -/
def roundB64 (num den : Int) : B64 :=
  if num = 0 then ⟨0, 1⟩
  else
    let sign : Int := if num < 0 then -1 else 1
    let a : Int := sign * num
    let e : Int := ratLog2 a den
    let p : Int := max (e - 52) (-1074)
    if 0 ≤ p then
      ⟨sign * roundHalfEven a (den * 2 ^ p.toNat) * 2 ^ p.toNat, 1⟩
    else
      ⟨sign * roundHalfEven (a * 2 ^ (-p).toNat) den, 2 ^ (-p).toNat⟩

/-- Python's conversion of an `int` to a `float` (correctly rounded). -/
def b64ofInt (j : Int) : B64 := roundB64 j 1

/-- Binary64 subtraction: the exact difference, rounded. -/
def b64sub (x y : B64) : B64 :=
  roundB64 (x.num * y.den - y.num * x.den) (x.den * y.den)

/-- Binary64 division by a positive integer: the exact quotient,
rounded (Python's `float / int` and `int / int` true division). -/
def b64divInt (x : B64) (k : Int) : B64 := roundB64 x.num (x.den * k)

/-- Binary64 multiplication by an integer: the exact product, rounded. -/
def b64mulInt (x : B64) (k : Int) : B64 := roundB64 (x.num * k) x.den

/-- Python's `int(x)` on a float: truncation toward zero. -/
def b64trunc (x : B64) : Int := x.num.tdiv x.den

/-- Python's `round(x, 2)` on a float, in hundredths: the half-even
rounding of `100 x` to an integer.  (`x` is dyadic, so an exact tie,
which would need denominator 200, cannot occur.) -/
def b64round2 (x : B64) : Int := roundHalfEven (100 * x.num) x.den

/-- Lines 257–264 of the source: the detailed time breakdown computed
from `alltime_total` with Python float arithmetic — `total_hours =
total_minutes / 60` and `total_days = total_hours / 24` are correctly
rounded divisions, `remaining_hours` and the final `* 60` correctly
rounded subtractions/multiplication (the `int` operands converted to
float first), and `int()` truncation toward zero. -/
def participation_time_breakdown (alltime_total : Int) : TimeBreakdown :=
  let total_minutes : Int := alltime_total
  let total_hours : B64 := roundB64 total_minutes 60
  let total_days : B64 := b64divInt total_hours 24
  let days : Int := b64trunc total_days
  let remaining_hours : B64 := b64sub total_hours (b64ofInt (days * 24))
  let hours : Int := b64trunc remaining_hours
  let minutes : Int :=
    b64trunc (b64mulInt (b64sub remaining_hours (b64ofInt hours)) 60)
  { days := days, hours := hours, minutes := minutes }

/-- The summary document built by `save_to_database` when overview data
is available (field `"type": "summary"` is carried by the constructor of
`StoredDoc` below).  Hour/day fields rounded to 2 decimals are held in
hundredths. -/
structure SummaryDoc where
  user_id : String
  account_name : String
  pubkey : String
  timestamp : Nat
  today_base_minutes : Int
  today_total_minutes : Int
  today_referral_minutes : Int
  alltime_base_minutes : Int
  alltime_total_minutes : Int
  alltime_referral_minutes : Int
  today_total_hours : Int
  alltime_total_hours : Int
  alltime_total_days : Int
  total_days_tracked : Nat
  time_breakdown : TimeBreakdown
deriving DecidableEq, Repr

/-- Lines 229–273 of the source: the summary document from the overview
snapshot and the computed daily records. -/
def mkSummaryDoc (overview_data : OverviewData)
    (account_name user_id pubkey : String) (timestamp : Nat)
    (daily_records : List DailyUptimeRecord) : SummaryDoc :=
  let today_base := dictGet overview_data "todayBaseReward"
  let today_total := dictGet overview_data "todayTotalReward"
  let today_referral := dictGet overview_data "todayReferralsReward"
  let alltime_base := dictGet overview_data "allTimeBaseReward"
  let alltime_total := dictGet overview_data "allTimeTotalReward"
  let alltime_referral := dictGet overview_data "allTimeReferralsReward"
  { user_id := user_id
    account_name := account_name
    pubkey := pubkey
    timestamp := timestamp
    today_base_minutes := today_base
    today_total_minutes := today_total
    today_referral_minutes := today_referral
    alltime_base_minutes := alltime_base
    alltime_total_minutes := alltime_total
    alltime_referral_minutes := alltime_referral
    today_total_hours := round2Of60th today_total
    alltime_total_hours := round2Of60th alltime_total
    alltime_total_days := b64round2 (roundB64 alltime_total (60 * 24))
    total_days_tracked := if daily_records.isEmpty then 0 else daily_records.length
    time_breakdown := participation_time_breakdown alltime_total }

/-- The daily document built for one daily record; `**daily_record` is
the embedded `record`. -/
structure DailyDoc where
  user_id : String
  account_name : String
  pubkey : String
  timestamp : Nat
  record : DailyUptimeRecord
deriving DecidableEq, Repr

/-- One `replace_one(..., upsert=True)` call issued by
`save_to_database`: either the summary upsert or a daily upsert. -/
inductive WriteOp where
  | summary (doc : SummaryDoc)
  | daily (doc : DailyDoc)
deriving DecidableEq, Repr

/-- Python truthiness of an optional list-like value: `None` and the
empty list/dict are falsy. -/
def truthy {α : Type} : Option (List α) → Bool
  | none => false
  | some l => !l.isEmpty

/-- The call `save_to_database(uptime_data, overview_data, account_name,
user_id, pubkey)`, as the sequence of upsert operations it issues: nothing when
both inputs are falsy; otherwise the summary upsert when the overview is
truthy, followed by one daily upsert per computed daily record when
there are any. -/
def save_to_database (uptime_data : Option (List EarningsRecord))
    (overview_data : Option OverviewData)
    (account_name user_id pubkey : String) (timestamp : Nat) : List WriteOp :=
  if !truthy uptime_data && !truthy overview_data then []
  else
    let daily_records :=
      if truthy uptime_data then
        calculate_daily_uptime (uptime_data.getD []) user_id
      else []
    (if truthy overview_data then
      [WriteOp.summary
        (mkSummaryDoc (overview_data.getD []) account_name user_id pubkey
          timestamp daily_records)]
    else []) ++
    (if !daily_records.isEmpty then
      daily_records.map (fun r =>
        WriteOp.daily
          { user_id := user_id, account_name := account_name, pubkey := pubkey
            timestamp := timestamp, record := r })
    else [])

/-! ## PersistenceGateway: the store and `replace_one` upserts -/

/-- A document of the `bless_uptime_tracker` collection.  The `"type"`
discriminator field is the constructor. -/
inductive StoredDoc where
  | summary (doc : SummaryDoc)
  | daily (doc : DailyDoc)
deriving DecidableEq, Repr

/-- The collection: a finite sequence of documents.  The partial unique
indexes of `setup_database` keep at most one summary document per
`user_id` and at most one daily document per `(user_id, date)`. -/
abbrev Store := List StoredDoc

/-- The filter `{"type": "daily_uptime", "user_id": user_id, "date":
date}`. -/
def matchesDailyKey (user_id date : String) : StoredDoc → Bool
  | .daily d => d.user_id == user_id && d.record.date == date
  | .summary _ => false

/-- The filter `{"type": "summary", "user_id": user_id}`. -/
def matchesSummaryKey (user_id : String) : StoredDoc → Bool
  | .summary d => d.user_id == user_id
  | .daily _ => false

/-- MongoDB `replace_one(filter, doc, upsert=True)`: the first document
matching the filter is replaced whole by `doc`; when none matches, `doc`
is inserted. -/
def replace_one (filt : StoredDoc → Bool) (doc : StoredDoc) :
    Store → Store
  | [] => [doc]
  | x :: xs => if filt x then doc :: xs else x :: replace_one filt doc xs

/-- The daily upsert of lines 301–305. -/
def upsertDaily (user_id date : String) (doc : DailyDoc) (s : Store) : Store :=
  replace_one (matchesDailyKey user_id date) (.daily doc) s

/-- The summary upsert of lines 276–280. -/
def upsertSummary (user_id : String) (doc : SummaryDoc) (s : Store) : Store :=
  replace_one (matchesSummaryKey user_id) (.summary doc) s

/-- Apply one write operation to the store, with the key the source
passes to `replace_one` for it. -/
def applyWrite (s : Store) : WriteOp → Store
  | .summary d => upsertSummary d.user_id d s
  | .daily d => upsertDaily d.user_id d.record.date d s

/-- Apply the writes of one `save_to_database` call in order. -/
def applyWrites (ops : List WriteOp) (s : Store) : Store :=
  ops.foldl applyWrite s

/-! ## AccountProcessor: `process_account` -/

/-- One entry of `bless_tokens.json`; `account.get(k)` is `none` for a
missing key. -/
structure Account where
  name : String
  jwt_token : Option String
  user_id : Option String
  pubkey : Option String
deriving DecidableEq, Repr

/-- Python truthiness of `account.get(k)`: `None` and `""` are falsy. -/
def truthyStr : Option String → Bool
  | none => false
  | some s => !(s == "")

/-- The constant `max_retries = 3`. -/
def max_retries : Nat := 3

/-- The constant `retry_delay = 10`. -/
def retry_delay : Nat := 10

/-- The observable steps of `process_account`: blocking sleeps, the two
fetch calls, and the `save_to_database` call with the data both fetches
returned. -/
inductive Event where
  | sleep (seconds : Nat)
  | fetchOverview
  | fetchEarnings
  | persist (uptime_data : Option (List EarningsRecord))
      (overview_data : Option OverviewData)
deriving DecidableEq, Repr

/-- The `for attempt in range(max_retries)` loop of `process_account`.
The fetch oracles give what `fetch_overview_data` / `fetch_uptime_data`
return on each attempt (`none` is any failure).  A missing or empty
credential field returns at once; an attempt on which at least one fetch
returned data persists and returns; otherwise the next attempt runs,
sleeping `retry_delay` first (`attempt > 0`). -/
def processLoop (account : Account)
    (fetchO : Nat → Option OverviewData)
    (fetchU : Nat → Option (List EarningsRecord)) :
    List Nat → List Event
  | [] => []
  | attempt :: rest =>
    if !(truthyStr account.jwt_token && truthyStr account.user_id &&
        truthyStr account.pubkey) then []
    else
      (if attempt > 0 then [Event.sleep retry_delay] else []) ++
      [Event.fetchOverview, Event.fetchEarnings] ++
      (let overview_data := fetchO attempt
       let uptime_data := fetchU attempt
       if overview_data.isSome || uptime_data.isSome then
         [Event.persist uptime_data overview_data]
       else processLoop account fetchO fetchU rest)

/-- The call `process_account(account)` as its event trace, for given fetch
oracles. -/
def process_account (account : Account)
    (fetchO : Nat → Option OverviewData)
    (fetchU : Nat → Option (List EarningsRecord)) :
    List Event :=
  processLoop account fetchO fetchU (List.range max_retries)

/-! ## Lemmas about the delta loop -/

theorem deltaLoop_length :
    ∀ (l : List EarningsRecord) (pb pt pr : Int),
      (deltaLoop pb pt pr l).length = l.length
  | [], _, _, _ => rfl
  | r :: rest, pb, pt, pr => by
    simp [deltaLoop, deltaLoop_length rest]

theorem length_sortRecords (l : List EarningsRecord) :
    (sortRecords l).length = l.length :=
  List.length_insertionSort _ _

theorem sortRecords_perm (l : List EarningsRecord) : (sortRecords l).Perm l :=
  List.perm_insertionSort _ _

theorem length_calculate_daily_uptime (rs : List EarningsRecord) (uid : String) :
    (calculate_daily_uptime rs uid).length = rs.length := by
  unfold calculate_daily_uptime
  split
  · next h => simp [List.isEmpty_iff.mp h]
  · rw [deltaLoop_length, length_sortRecords]

theorem calculate_daily_uptime_eq_deltaLoop (rs : List EarningsRecord)
    (uid : String) (hne : rs ≠ []) :
    calculate_daily_uptime rs uid = deltaLoop 0 0 0 (sortRecords rs) := by
  unfold calculate_daily_uptime
  rw [if_neg (by simpa [List.isEmpty_iff] using hne)]

theorem deltaLoop_map_date :
    ∀ (l : List EarningsRecord) (pb pt pr : Int),
      (deltaLoop pb pt pr l).map (fun r => r.date) = l.map (fun r => r.date)
  | [], _, _, _ => rfl
  | r :: rest, pb, pt, pr => by
    simp [deltaLoop, stepRecord, deltaLoop_map_date rest]

theorem deltaLoop_nonneg :
    ∀ (l : List EarningsRecord) (pb pt pr : Int) (rec : DailyUptimeRecord),
      rec ∈ deltaLoop pb pt pr l →
        0 ≤ rec.daily_base_minutes ∧ 0 ≤ rec.daily_total_minutes ∧
          0 ≤ rec.daily_referral_minutes
  | [], _, _, _, rec, hrec => absurd hrec (List.not_mem_nil rec)
  | r :: rest, pb, pt, pr, rec, hrec => by
    rcases List.mem_cons.mp hrec with h | h
    · subst h
      exact ⟨le_max_left _ _, le_max_left _ _, le_max_left _ _⟩
    · exact deltaLoop_nonneg rest _ _ _ rec h

/-- Each counter's deltas telescope: when the counter is nondecreasing
along the list starting from its initial baseline, no `max` truncates,
and the deltas sum to the final cumulative value minus the baseline. -/
theorem deltaLoop_sum :
    ∀ (l : List EarningsRecord) (hne : l ≠ []) (pb pt pr : Int),
      (List.Chain (· ≤ ·) pb (l.map (fun r => r.baseReward)) →
        ((deltaLoop pb pt pr l).map (fun r => r.daily_base_minutes)).sum =
          (l.getLast hne).baseReward - pb) ∧
      (List.Chain (· ≤ ·) pt (l.map (fun r => r.totalReward)) →
        ((deltaLoop pb pt pr l).map (fun r => r.daily_total_minutes)).sum =
          (l.getLast hne).totalReward - pt) ∧
      (List.Chain (· ≤ ·) pr (l.map (fun r => r.referralReward)) →
        ((deltaLoop pb pt pr l).map (fun r => r.daily_referral_minutes)).sum =
          (l.getLast hne).referralReward - pr)
  | [r], _, pb, pt, pr => by
    refine ⟨fun hch => ?_, fun hch => ?_, fun hch => ?_⟩
    · have h1 : pb ≤ r.baseReward := by simpa using hch
      have hmap : (deltaLoop pb pt pr [r]).map (fun x => x.daily_base_minutes) =
          [max 0 (r.baseReward - pb)] := rfl
      rw [hmap, List.sum_cons, List.sum_nil, List.getLast_singleton,
        max_eq_right (by omega)]
      omega
    · have h1 : pt ≤ r.totalReward := by simpa using hch
      have hmap : (deltaLoop pb pt pr [r]).map (fun x => x.daily_total_minutes) =
          [max 0 (r.totalReward - pt)] := rfl
      rw [hmap, List.sum_cons, List.sum_nil, List.getLast_singleton,
        max_eq_right (by omega)]
      omega
    · have h1 : pr ≤ r.referralReward := by simpa using hch
      have hmap : (deltaLoop pb pt pr [r]).map (fun x => x.daily_referral_minutes) =
          [max 0 (r.referralReward - pr)] := rfl
      rw [hmap, List.sum_cons, List.sum_nil, List.getLast_singleton,
        max_eq_right (by omega)]
      omega
  | r :: s :: rest, _, pb, pt, pr => by
    have ihb := (deltaLoop_sum (s :: rest) (by simp) r.baseReward r.totalReward
      r.referralReward).1
    have iht := (deltaLoop_sum (s :: rest) (by simp) r.baseReward r.totalReward
      r.referralReward).2.1
    have ihr := (deltaLoop_sum (s :: rest) (by simp) r.baseReward r.totalReward
      r.referralReward).2.2
    refine ⟨fun hch => ?_, fun hch => ?_, fun hch => ?_⟩
    · rw [List.map_cons] at hch
      rcases List.chain_cons.mp hch with ⟨h1, h2⟩
      rw [deltaLoop, List.map_cons, List.sum_cons, List.getLast_cons (by simp),
        ihb h2]
      have hstep : (stepRecord pb pt pr r).daily_base_minutes =
          max 0 (r.baseReward - pb) := rfl
      rw [hstep, max_eq_right (by omega)]
      omega
    · rw [List.map_cons] at hch
      rcases List.chain_cons.mp hch with ⟨h1, h2⟩
      rw [deltaLoop, List.map_cons, List.sum_cons, List.getLast_cons (by simp),
        iht h2]
      have hstep : (stepRecord pb pt pr r).daily_total_minutes =
          max 0 (r.totalReward - pt) := rfl
      rw [hstep, max_eq_right (by omega)]
      omega
    · rw [List.map_cons] at hch
      rcases List.chain_cons.mp hch with ⟨h1, h2⟩
      rw [deltaLoop, List.map_cons, List.sum_cons, List.getLast_cons (by simp),
        ihr h2]
      have hstep : (stepRecord pb pt pr r).daily_referral_minutes =
          max 0 (r.referralReward - pr) := rfl
      rw [hstep, max_eq_right (by omega)]
      omega

/-! ## Claim C1: sum of the daily deltas -/

/-- C1, counterexample.  The claim: for a nondecreasing cumulative
sequence the deltas sum to `c_n − c_1`.  For the single-record history
with cumulative `totalReward` 5 (so `c_1 = c_n = 5`, trivially
nondecreasing) the emitted delta is `5 − 0 = 5`, because the running
baseline starts at 0 — but `c_n − c_1 = 0`. -/
theorem deltas_sum_counterexample :
    ¬ (((calculate_daily_uptime [⟨"01", 5, 5, 5⟩] "u").map
          (fun r => r.daily_total_minutes)).sum =
        ((sortRecords [⟨"01", 5, 5, 5⟩]).map
          (fun r => r.totalReward)).getLast?.getD 0 -
        ((sortRecords [⟨"01", 5, 5, 5⟩]).map
          (fun r => r.totalReward)).head?.getD 0) := by
  decide

/-- C1 (amended).  For every history whose cumulative counters are,
in date-sorted order, non-negative and nondecreasing (`List.Chain (· ≤ ·) 0`
states both), the daily deltas of each counter sum to the *last*
cumulative value `c_n` — equivalently `c_n − 0`, the initial baseline
being 0 — not `c_n − c_1`. -/
theorem deltas_sum_eq_last_cumulative (rs : List EarningsRecord) (uid : String)
    (hne : sortRecords rs ≠ [])
    (hbase : List.Chain (· ≤ ·) 0 ((sortRecords rs).map (fun r => r.baseReward)))
    (htotal : List.Chain (· ≤ ·) 0 ((sortRecords rs).map (fun r => r.totalReward)))
    (href : List.Chain (· ≤ ·) 0 ((sortRecords rs).map (fun r => r.referralReward))) :
    ((calculate_daily_uptime rs uid).map (fun r => r.daily_base_minutes)).sum =
        ((sortRecords rs).getLast hne).baseReward ∧
    ((calculate_daily_uptime rs uid).map (fun r => r.daily_total_minutes)).sum =
        ((sortRecords rs).getLast hne).totalReward ∧
    ((calculate_daily_uptime rs uid).map (fun r => r.daily_referral_minutes)).sum =
        ((sortRecords rs).getLast hne).referralReward := by
  have hrs : rs ≠ [] := by
    intro h
    subst h
    exact hne rfl
  rw [calculate_daily_uptime_eq_deltaLoop rs uid hrs]
  have h := deltaLoop_sum (sortRecords rs) hne 0 0 0
  exact ⟨by simpa using h.1 hbase, by simpa using h.2.1 htotal,
    by simpa using h.2.2 href⟩

/-- Witness for `deltas_sum_eq_last_cumulative` at a concrete two-day
history given out of order. -/
theorem deltas_sum_eq_last_cumulative_witness :
    sortRecords [⟨"02", 3, 4, 5⟩, ⟨"01", 1, 2, 3⟩] ≠ [] ∧
    ((calculate_daily_uptime [⟨"02", 3, 4, 5⟩, ⟨"01", 1, 2, 3⟩] "u").map
        (fun r => r.daily_total_minutes)).sum =
      ((sortRecords [⟨"02", 3, 4, 5⟩, ⟨"01", 1, 2, 3⟩]).getLast
        (by decide)).totalReward :=
  ⟨by decide,
    (deltas_sum_eq_last_cumulative [⟨"02", 3, 4, 5⟩, ⟨"01", 1, 2, 3⟩] "u"
      (by decide)
      (by
        rw [show sortRecords [⟨"02", 3, 4, 5⟩, ⟨"01", 1, 2, 3⟩] =
            [⟨"01", 1, 2, 3⟩, ⟨"02", 3, 4, 5⟩] from by decide]
        simp [List.chain_cons])
      (by
        rw [show sortRecords [⟨"02", 3, 4, 5⟩, ⟨"01", 1, 2, 3⟩] =
            [⟨"01", 1, 2, 3⟩, ⟨"02", 3, 4, 5⟩] from by decide]
        simp [List.chain_cons])
      (by
        rw [show sortRecords [⟨"02", 3, 4, 5⟩, ⟨"01", 1, 2, 3⟩] =
            [⟨"01", 1, 2, 3⟩, ⟨"02", 3, 4, 5⟩] from by decide]
        simp [List.chain_cons])).2.1⟩

/-! ## Claim C2: regressions give delta 0 and still advance the baseline -/

theorem deltaLoop_get_succ :
    ∀ (l : List EarningsRecord) (pb pt pr : Int) (i : Nat)
      (h' : i + 1 < (deltaLoop pb pt pr l).length) (h : i + 1 < l.length)
      (h₀ : i < l.length),
      (deltaLoop pb pt pr l).get ⟨i + 1, h'⟩ =
        stepRecord ((l.get ⟨i, h₀⟩).baseReward) ((l.get ⟨i, h₀⟩).totalReward)
          ((l.get ⟨i, h₀⟩).referralReward) (l.get ⟨i + 1, h⟩)
  | [], _, _, _, _, _, h, _ => by simp at h
  | [r], _, _, _, 0, _, h, _ => by simp at h
  | r :: s :: rest, pb, pt, pr, 0, _, _, _ => rfl
  | r :: rest, pb, pt, pr, i + 1, h', h, h₀ => by
    have h2' : i + 1 <
        (deltaLoop r.baseReward r.totalReward r.referralReward rest).length := by
      rw [deltaLoop_length]
      simpa using h
    have h2 : i + 1 < rest.length := by simpa using h
    have h20 : i < rest.length := by omega
    have ih := deltaLoop_get_succ rest r.baseReward r.totalReward
      r.referralReward i h2' h2 h20
    simpa [deltaLoop] using ih

/-- C2.  In the date-sorted order, the output record at position
`i + 1` is exactly `stepRecord` of the cumulative counters at position
`i` — the baseline for record `i + 1` is `c_i`, whatever happened before
— so a counter that regresses (`c_{i+1} < c_i`) yields delta
`max 0 (c_{i+1} − c_i) = 0`, and no emitted delta is ever negative. -/
theorem regression_delta_zero (rs : List EarningsRecord) (uid : String) (i : Nat)
    (h : i + 1 < (sortRecords rs).length)
    (h' : i + 1 < (calculate_daily_uptime rs uid).length)
    (h₀ : i < (sortRecords rs).length) :
    (((sortRecords rs).get ⟨i + 1, h⟩).totalReward <
        ((sortRecords rs).get ⟨i, h₀⟩).totalReward →
      ((calculate_daily_uptime rs uid).get ⟨i + 1, h'⟩).daily_total_minutes = 0) ∧
    ((calculate_daily_uptime rs uid).get ⟨i + 1, h'⟩).daily_total_minutes =
      max 0 (((sortRecords rs).get ⟨i + 1, h⟩).totalReward -
        ((sortRecords rs).get ⟨i, h₀⟩).totalReward) ∧
    (((sortRecords rs).get ⟨i + 1, h⟩).baseReward <
        ((sortRecords rs).get ⟨i, h₀⟩).baseReward →
      ((calculate_daily_uptime rs uid).get ⟨i + 1, h'⟩).daily_base_minutes = 0) ∧
    ((calculate_daily_uptime rs uid).get ⟨i + 1, h'⟩).daily_base_minutes =
      max 0 (((sortRecords rs).get ⟨i + 1, h⟩).baseReward -
        ((sortRecords rs).get ⟨i, h₀⟩).baseReward) ∧
    (((sortRecords rs).get ⟨i + 1, h⟩).referralReward <
        ((sortRecords rs).get ⟨i, h₀⟩).referralReward →
      ((calculate_daily_uptime rs uid).get ⟨i + 1, h'⟩).daily_referral_minutes = 0) ∧
    ((calculate_daily_uptime rs uid).get ⟨i + 1, h'⟩).daily_referral_minutes =
      max 0 (((sortRecords rs).get ⟨i + 1, h⟩).referralReward -
        ((sortRecords rs).get ⟨i, h₀⟩).referralReward) ∧
    (∀ rec ∈ calculate_daily_uptime rs uid,
      0 ≤ rec.daily_base_minutes ∧ 0 ≤ rec.daily_total_minutes ∧
        0 ≤ rec.daily_referral_minutes) := by
  have hrs : rs ≠ [] := by
    intro hc
    subst hc
    simp [sortRecords, List.insertionSort] at h
  have heq := calculate_daily_uptime_eq_deltaLoop rs uid hrs
  revert h'
  rw [heq]
  intro h'
  rw [deltaLoop_get_succ (sortRecords rs) 0 0 0 i h' h h₀]
  refine ⟨fun hlt => ?_, ?_, fun hlt => ?_, ?_, fun hlt => ?_, ?_, ?_⟩
  · show max 0 _ = 0
    omega
  · rfl
  · show max 0 _ = 0
    omega
  · rfl
  · show max 0 _ = 0
    omega
  · rfl
  · exact fun rec hrec => deltaLoop_nonneg _ _ _ _ rec hrec

/-- Witness for `regression_delta_zero`: three days given unsorted, the
total counter regresses on day "03" (50 → 40); at sorted position 2 the
delta is 0, and the baseline for that position is day "02"'s counter. -/
theorem regression_delta_zero_witness :
    1 + 1 < (sortRecords [⟨"03", 9, 40, 0⟩, ⟨"01", 2, 30, 0⟩, ⟨"02", 5, 50, 1⟩]).length ∧
    ((calculate_daily_uptime [⟨"03", 9, 40, 0⟩, ⟨"01", 2, 30, 0⟩, ⟨"02", 5, 50, 1⟩]
        "u").get ⟨1 + 1, by decide⟩).daily_total_minutes = 0 :=
  ⟨by decide,
    (regression_delta_zero [⟨"03", 9, 40, 0⟩, ⟨"01", 2, 30, 0⟩, ⟨"02", 5, 50, 1⟩]
      "u" 1 (by decide) (by decide) (by decide)).1 (by decide)⟩

/-! ## Claim C3: stable sort, no dedup, empty input -/

/-- C3.  Here `calculate_daily_uptime` maps the empty input to the empty
output; output length always equals input length (duplicate dates are
not merged — each input record yields exactly one output record); the
output follows the records in date-sorted ascending order; and the sort
is stable: for any date `d`, the records carrying `d` appear in the
sorted sequence exactly as they appear in the input. -/
theorem sort_stable_no_dedup_empty (rs : List EarningsRecord) (uid d : String) :
    calculate_daily_uptime [] uid = [] ∧
    (calculate_daily_uptime rs uid).length = rs.length ∧
    (calculate_daily_uptime rs uid).map (fun r => r.date) =
      (sortRecords rs).map (fun r => r.date) ∧
    List.Pairwise recordLe (sortRecords rs) ∧
    (sortRecords rs).filter (fun r => r.date == d) =
      rs.filter (fun r => r.date == d) := by
  refine ⟨rfl, length_calculate_daily_uptime rs uid, ?_, ?_, ?_⟩
  · by_cases hrs : rs = []
    · subst hrs
      rfl
    · rw [calculate_daily_uptime_eq_deltaLoop rs uid hrs, deltaLoop_map_date]
  · exact List.sorted_insertionSort recordLe rs
  · have hsame : (rs.filter (fun r => r.date == d)).filter (fun r => r.date == d) =
        rs.filter (fun r => r.date == d) :=
      List.filter_eq_self.mpr (fun a ha => (List.mem_filter.mp ha).2)
    have hsub : List.Sublist (rs.filter (fun r => r.date == d)) (sortRecords rs) := by
      apply List.sublist_insertionSort
      · apply List.pairwise_of_forall_mem_list
        intro a ha b hb
        have had : a.date = d := by simpa using (List.mem_filter.mp ha).2
        have hbd : b.date = d := by simpa using (List.mem_filter.mp hb).2
        show dateLe a.date b.date = true
        rw [had, hbd]
        exact charsLe_refl _
      · exact List.filter_sublist rs
    have hsub2 : List.Sublist (rs.filter (fun r => r.date == d))
        ((sortRecords rs).filter (fun r => r.date == d)) := by
      have := hsub.filter (fun r => r.date == d)
      rwa [hsame] at this
    have hperm : ((sortRecords rs).filter (fun r => r.date == d)).Perm
        (rs.filter (fun r => r.date == d)) :=
      (sortRecords_perm rs).filter _
    exact (hsub2.eq_of_length hperm.length_eq.symm).symm

/-! ## Claim C4: order independence for distinct dates -/

/-- C4.  Two inputs that are permutations of each other with
pairwise distinct dates produce identical outputs: the pre-sort
normalizes the order, and distinct dates make the sorted sequence
unique. -/
theorem output_order_independent (rs₁ rs₂ : List EarningsRecord) (uid : String)
    (hperm : rs₁.Perm rs₂) (hnodup : (rs₁.map (fun r => r.date)).Nodup) :
    calculate_daily_uptime rs₁ uid = calculate_daily_uptime rs₂ uid := by
  have hnodup₂ : (rs₂.map (fun r => r.date)).Nodup :=
    ((hperm.map (fun r => r.date)).nodup_iff).mp hnodup
  have hsorted : ∀ (l : List EarningsRecord), (l.map (fun r => r.date)).Nodup →
      List.Pairwise (fun a b => recordLe a b ∧ a.date ≠ b.date) (sortRecords l) := by
    intro l hnd
    have h1 : List.Pairwise recordLe (sortRecords l) :=
      List.sorted_insertionSort recordLe l
    have h2 : List.Pairwise (fun a b : EarningsRecord => a.date ≠ b.date)
        (sortRecords l) := by
      have hnd' : ((sortRecords l).map (fun r => r.date)).Nodup :=
        (((sortRecords_perm l).map (fun r => r.date)).nodup_iff).mpr hnd
      exact List.pairwise_map.mp hnd'
    exact h1.and h2
  have hanti : IsAntisymm EarningsRecord
      (fun a b => recordLe a b ∧ a.date ≠ b.date) := by
    constructor
    intro a b hab hba
    exact absurd (dateLe_antisymm hab.1 hba.1) hab.2
  have hp : (sortRecords rs₁).Perm (sortRecords rs₂) :=
    (sortRecords_perm rs₁).trans (hperm.trans (sortRecords_perm rs₂).symm)
  have hsorteq : sortRecords rs₁ = sortRecords rs₂ :=
    @List.eq_of_perm_of_sorted _ _ hanti _ _ hp (hsorted rs₁ hnodup)
      (hsorted rs₂ hnodup₂)
  have hemp : rs₁.isEmpty = rs₂.isEmpty := by
    cases rs₁ <;> cases rs₂ <;> simp_all
  unfold calculate_daily_uptime
  rw [hemp, hsorteq]

/-- Witness for `output_order_independent`: a three-day history and its
reversal, with distinct dates, yield the same output. -/
theorem output_order_independent_witness :
    ([⟨"02", 1, 2, 3⟩, ⟨"01", 0, 1, 2⟩, ⟨"03", 4, 5, 6⟩] :
        List EarningsRecord).Perm
      [⟨"03", 4, 5, 6⟩, ⟨"01", 0, 1, 2⟩, ⟨"02", 1, 2, 3⟩] ∧
    calculate_daily_uptime [⟨"02", 1, 2, 3⟩, ⟨"01", 0, 1, 2⟩, ⟨"03", 4, 5, 6⟩] "u" =
      calculate_daily_uptime [⟨"03", 4, 5, 6⟩, ⟨"01", 0, 1, 2⟩, ⟨"02", 1, 2, 3⟩] "u" :=
  ⟨by decide,
    output_order_independent _ _ "u" (by decide) (by decide)⟩

/-! ## Claim C5: the participation time breakdown -/

/-- C5, code bug.  The claim (matching the spec's "floor semantics, not
rounding") says the breakdown is `days = t / 1440`,
`hours = t % 1440 / 60`, `minutes = t % 60` for every non-negative
total.  The program computes it with binary64 floats, and the rounding
error of the very first division already breaks it: at
`allTimeTotalReward = 61`, `fl(61/60) < 61/60`, so
`(remaining_hours - hours) * 60` is the float `0.9999999999999964` and
`int()` truncates it to 0 — the stored breakdown is 0 days, 1 hour, 0
minutes where the claim requires `61 % 60 = 1` minute (likewise 3723 →
2 minutes instead of `3723 % 60 = 3`).  The spec's example
`1500 → 1 day, 1 hour, 0 minutes` does hold, and the summary document
of `mkSummaryDoc` carries exactly this (float) breakdown of its
`allTimeTotalReward` field. -/
theorem time_breakdown_float_bug :
    participation_time_breakdown 61 = { days := 0, hours := 1, minutes := 0 } ∧
    participation_time_breakdown 61 ≠
      { days := ((61 / 1440 : ℕ) : Int), hours := ((61 % 1440 / 60 : ℕ) : Int),
        minutes := ((61 % 60 : ℕ) : Int) } ∧
    participation_time_breakdown 3723 =
      { days := 2, hours := 14, minutes := 2 } ∧
    (3723 : ℕ) % 60 = 3 ∧
    participation_time_breakdown 1500 =
      { days := 1, hours := 1, minutes := 0 } ∧
    (∀ (ov : OverviewData) (n u p : String) (ts : Nat)
        (dr : List DailyUptimeRecord),
      (mkSummaryDoc ov n u p ts dr).time_breakdown =
        participation_time_breakdown (dictGet ov "allTimeTotalReward")) :=
  ⟨by decide, by decide, by decide, rfl, by decide,
    fun ov n u p ts dr => rfl⟩

/-! ## Claims C6 and C10: partial data in `save_to_database` -/

theorem calculate_daily_uptime_ne_nil (l : List EarningsRecord) (u : String)
    (h : l ≠ []) : calculate_daily_uptime l u ≠ [] := by
  intro hc
  have hl := length_calculate_daily_uptime l u
  rw [hc] at hl
  exact h (List.length_eq_zero.mp hl.symm)

/-- With no overview data, `save_to_database` issues exactly the daily
upserts, one per computed daily record. -/
theorem save_to_database_no_overview (l : List EarningsRecord)
    (n u p : String) (ts : Nat) :
    save_to_database (some l) none n u p ts =
      (calculate_daily_uptime l u).map (fun r =>
        WriteOp.daily { user_id := u, account_name := n, pubkey := p
                        timestamp := ts, record := r }) := by
  cases l with
  | nil => rfl
  | cons x xs =>
    have hne : calculate_daily_uptime (x :: xs) u ≠ [] :=
      calculate_daily_uptime_ne_nil _ u (by simp)
    simp [save_to_database, truthy, hne]

/-- With a truthy overview and no earnings list, `save_to_database`
issues exactly the summary upsert. -/
theorem save_to_database_only_overview (ov : OverviewData)
    (n u p : String) (ts : Nat) (hov : ov ≠ []) :
    save_to_database none (some ov) n u p ts =
      [WriteOp.summary (mkSummaryDoc ov n u p ts [])] := by
  simp [save_to_database, truthy, hov]

/-- C6.  An absent snapshot with a present earnings list produces no
summary write — only the daily upserts, one per daily record; a present
(truthy) snapshot with an absent earnings list still produces the
summary upsert. -/
theorem partial_data_persistence (n u p : String) (ts : Nat) :
    (∀ l : List EarningsRecord,
      save_to_database (some l) none n u p ts =
        (calculate_daily_uptime l u).map (fun r =>
          WriteOp.daily { user_id := u, account_name := n, pubkey := p
                          timestamp := ts, record := r })) ∧
    (∀ (l : List EarningsRecord) (doc : SummaryDoc),
      WriteOp.summary doc ∉ save_to_database (some l) none n u p ts) ∧
    (∀ ov : OverviewData, ov ≠ [] →
      save_to_database none (some ov) n u p ts =
        [WriteOp.summary (mkSummaryDoc ov n u p ts [])]) := by
  refine ⟨fun l => save_to_database_no_overview l n u p ts, ?_,
    fun ov hov => save_to_database_only_overview ov n u p ts hov⟩
  intro l doc hmem
  rw [save_to_database_no_overview l n u p ts] at hmem
  simp [List.mem_map] at hmem

/-- Witness for `partial_data_persistence`: a nonempty overview alone
yields the summary write; a nonempty earnings list alone yields the
daily writes. -/
theorem partial_data_persistence_witness :
    ([("allTimeTotalReward", (1500 : Int))] : OverviewData) ≠ [] ∧
    save_to_database none (some [("allTimeTotalReward", 1500)]) "a" "u" "p" 7 =
      [WriteOp.summary
        (mkSummaryDoc [("allTimeTotalReward", 1500)] "a" "u" "p" 7 [])] ∧
    save_to_database (some [⟨"01", 1, 2, 3⟩]) none "a" "u" "p" 7 =
      (calculate_daily_uptime [⟨"01", 1, 2, 3⟩] "u").map (fun r =>
        WriteOp.daily { user_id := "u", account_name := "a", pubkey := "p"
                        timestamp := 7, record := r }) :=
  ⟨by decide,
    (partial_data_persistence "a" "u" "p" 7).2.2 _ (by decide),
    (partial_data_persistence "a" "u" "p" 7).1 _⟩

/-- C10.  The function `save_to_database` tests its inputs for truthiness, so an
empty overview mapping behaves exactly like an absent one (no summary
write), an empty earnings list behaves exactly like an absent one (no
daily writes), and when both are empty nothing is written and the store
is left unchanged. -/
theorem empty_snapshot_truthiness (n u p : String) (ts : Nat) :
    (∀ up : Option (List EarningsRecord),
      save_to_database up (some []) n u p ts =
        save_to_database up none n u p ts) ∧
    (∀ ov : Option OverviewData,
      save_to_database (some []) ov n u p ts =
        save_to_database none ov n u p ts) ∧
    (∀ (up : Option (List EarningsRecord)) (doc : SummaryDoc),
      WriteOp.summary doc ∉ save_to_database up (some []) n u p ts) ∧
    (∀ (ov : Option OverviewData) (doc : DailyDoc),
      WriteOp.daily doc ∉ save_to_database (some []) ov n u p ts) ∧
    save_to_database (some []) (some []) n u p ts = [] ∧
    (∀ s : Store,
      applyWrites (save_to_database (some []) (some []) n u p ts) s = s) := by
  refine ⟨fun up => rfl, fun ov => rfl, ?_, ?_, rfl, fun s => rfl⟩
  · intro up doc hmem
    match up with
    | none => exact List.not_mem_nil _ hmem
    | some l =>
      rw [show save_to_database (some l) (some []) n u p ts =
          save_to_database (some l) none n u p ts from rfl,
        save_to_database_no_overview l n u p ts] at hmem
      simp [List.mem_map] at hmem
  · intro ov doc hmem
    match ov with
    | none => exact List.not_mem_nil _ hmem
    | some [] => exact List.not_mem_nil _ hmem
    | some (q :: qs) =>
      rw [show save_to_database (some []) (some (q :: qs)) n u p ts =
          save_to_database none (some (q :: qs)) n u p ts from rfl,
        save_to_database_only_overview (q :: qs) n u p ts (by simp)] at hmem
      simp at hmem

/-! ## Claim C7: idempotence of the daily upsert -/

theorem replace_one_idem (filt : StoredDoc → Bool) (doc : StoredDoc)
    (hdoc : filt doc = true) :
    ∀ s : Store,
      replace_one filt doc (replace_one filt doc s) = replace_one filt doc s
  | [] => by simp [replace_one, hdoc]
  | x :: xs => by
    by_cases hx : filt x = true
    · simp [replace_one, hx, hdoc]
    · simp [replace_one, hx, replace_one_idem filt doc hdoc xs]

theorem replace_one_key :
    ∀ (s : Store) (filt : StoredDoc → Bool) (doc : StoredDoc),
      filt doc = true → s.countP filt ≤ 1 →
      (replace_one filt doc s).countP filt = 1 ∧
      (replace_one filt doc s).filter filt = [doc]
  | [], filt, doc, hdoc, _ => by simp [replace_one, hdoc]
  | x :: xs, filt, doc, hdoc, huniq => by
    rw [List.countP_cons] at huniq
    by_cases hx : filt x = true
    · rw [if_pos hx] at huniq
      have hxs : xs.countP filt = 0 := by omega
      have hfil : xs.filter filt = [] := by
        rw [List.filter_eq_nil_iff]
        intro a ha hfa
        exact absurd hfa (List.countP_eq_zero.mp hxs a ha)
      simp [replace_one, hx, List.countP_cons, hdoc, hxs, hfil]
    · rw [if_neg hx] at huniq
      have ih := replace_one_key xs filt doc hdoc (by omega)
      simp [replace_one, hx, List.countP_cons, ih.1, ih.2]

/-- C7.  Under the uniqueness invariant of the partial unique index
(at most one stored daily document per `(user_id, date)` key), applying
the daily upsert twice with the identical document equals applying it
once, and the result stores exactly one document for that key — the
input document itself, the previous one fully replaced. -/
theorem daily_upsert_idempotent (s : Store) (uid date : String) (doc : DailyDoc)
    (hkey : matchesDailyKey uid date (StoredDoc.daily doc) = true)
    (huniq : s.countP (matchesDailyKey uid date) ≤ 1) :
    upsertDaily uid date doc (upsertDaily uid date doc s) =
      upsertDaily uid date doc s ∧
    (upsertDaily uid date doc s).countP (matchesDailyKey uid date) = 1 ∧
    (upsertDaily uid date doc s).filter (matchesDailyKey uid date) =
      [StoredDoc.daily doc] :=
  ⟨replace_one_idem _ _ hkey s,
    (replace_one_key s _ _ hkey huniq).1,
    (replace_one_key s _ _ hkey huniq).2⟩

/-- Witness for `daily_upsert_idempotent`: a store holding an older
daily document for the key `("u", "01")` and a summary document. -/
theorem daily_upsert_idempotent_witness :
    matchesDailyKey "u" "01"
      (StoredDoc.daily { user_id := "u", account_name := "a", pubkey := "p"
                         timestamp := 9
                         record := ⟨"01", 4, 4, 0, 7, 7, 4, 4, 0⟩ }) = true ∧
    ([StoredDoc.daily { user_id := "u", account_name := "a", pubkey := "p"
                        timestamp := 3
                        record := ⟨"01", 2, 2, 0, 3, 3, 2, 2, 0⟩ },
      StoredDoc.daily { user_id := "u", account_name := "a", pubkey := "p"
                        timestamp := 3
                        record := ⟨"02", 5, 5, 0, 8, 8, 5, 5, 0⟩ }] :
        Store).countP (matchesDailyKey "u" "01") ≤ 1 ∧
    (upsertDaily "u" "01"
        { user_id := "u", account_name := "a", pubkey := "p", timestamp := 9
          record := ⟨"01", 4, 4, 0, 7, 7, 4, 4, 0⟩ }
        [StoredDoc.daily { user_id := "u", account_name := "a", pubkey := "p"
                           timestamp := 3
                           record := ⟨"01", 2, 2, 0, 3, 3, 2, 2, 0⟩ },
         StoredDoc.daily { user_id := "u", account_name := "a", pubkey := "p"
                           timestamp := 3
                           record := ⟨"02", 5, 5, 0, 8, 8, 5, 5, 0⟩ }]).filter
      (matchesDailyKey "u" "01") =
      [StoredDoc.daily { user_id := "u", account_name := "a", pubkey := "p"
                         timestamp := 9
                         record := ⟨"01", 4, 4, 0, 7, 7, 4, 4, 0⟩ }] :=
  ⟨by decide, by decide,
    (daily_upsert_idempotent _ "u" "01" _ (by decide) (by decide)).2.2⟩

/-! ## Claims C8 and C9: `process_account` -/

/-- C8.  An account configuration missing the token, the user id or
the public key makes `process_account` return on the first loop
iteration with an empty trace: no sleep, no fetch call, and no persist
call ever happens. -/
theorem missing_config_skips (account : Account)
    (fetchO : Nat → Option OverviewData)
    (fetchU : Nat → Option (List EarningsRecord))
    (h : account.jwt_token = none ∨ account.user_id = none ∨
      account.pubkey = none) :
    process_account account fetchO fetchU = [] := by
  have hfalse : (truthyStr account.jwt_token && truthyStr account.user_id &&
      truthyStr account.pubkey) = false := by
    rcases h with h | h | h <;> simp [truthyStr, h]
  show processLoop account fetchO fetchU (List.range max_retries) = []
  rw [show List.range max_retries = [0, 1, 2] from rfl]
  simp [processLoop, hfalse]

/-- Witness for `missing_config_skips`: an account with no `pubkey`
produces the empty trace. -/
theorem missing_config_skips_witness :
    (Account.mk "a" (some "t") (some "u") none).pubkey = none ∧
    process_account (Account.mk "a" (some "t") (some "u") none)
      (fun _ => none) (fun _ => none) = [] :=
  ⟨rfl,
    missing_config_skips (Account.mk "a" (some "t") (some "u") none)
      (fun _ => none) (fun _ => none) (Or.inr (Or.inr rfl))⟩

/-- C9.  With a complete configuration: the attempt on which at
least one fetch first returns data (every earlier attempt having had
both fetches fail) ends the loop with exactly one persist call, after
`k` sleeps of `retry_delay` seconds — one before each of attempts 2 and
3 only — and `2 (k + 1)` fetch calls; when all `max_retries = 3`
attempts have both fetches fail the trace is exactly three fetch pairs
separated by two fixed sleeps and no persist; and on any oracle the
trace has at most one persist, two sleeps and three fetch pairs. -/
theorem retry_policy (account : Account)
    (fetchO : Nat → Option OverviewData)
    (fetchU : Nat → Option (List EarningsRecord))
    (h₁ : truthyStr account.jwt_token = true)
    (h₂ : truthyStr account.user_id = true)
    (h₃ : truthyStr account.pubkey = true) :
    (∀ k : Nat, k < max_retries →
      (∀ i, i < k → fetchO i = none ∧ fetchU i = none) →
      ((fetchO k).isSome ∨ (fetchU k).isSome) →
      process_account account fetchO fetchU =
        (List.range (k + 1)).flatMap (fun i =>
          (if i > 0 then [Event.sleep retry_delay] else []) ++
          [Event.fetchOverview, Event.fetchEarnings]) ++
        [Event.persist (fetchU k) (fetchO k)]) ∧
    ((∀ i, i < max_retries → fetchO i = none ∧ fetchU i = none) →
      process_account account fetchO fetchU =
        [Event.fetchOverview, Event.fetchEarnings,
          Event.sleep retry_delay, Event.fetchOverview, Event.fetchEarnings,
          Event.sleep retry_delay, Event.fetchOverview, Event.fetchEarnings]) ∧
    ((process_account account fetchO fetchU).countP
        (fun e => match e with | Event.persist _ _ => true | _ => false) ≤ 1 ∧
      (process_account account fetchO fetchU).countP
        (fun e => match e with | Event.sleep _ => true | _ => false) ≤ 2 ∧
      (process_account account fetchO fetchU).countP
        (fun e => match e with | Event.fetchOverview => true | _ => false) ≤ 3) := by
  have hv : (truthyStr account.jwt_token && truthyStr account.user_id &&
      truthyStr account.pubkey) = true := by
    rw [h₁, h₂, h₃]
    rfl
  have hstep : ∀ (attempt : Nat) (rest : List Nat),
      processLoop account fetchO fetchU (attempt :: rest) =
        (if attempt > 0 then [Event.sleep retry_delay] else []) ++
        [Event.fetchOverview, Event.fetchEarnings] ++
        (if (fetchO attempt).isSome || (fetchU attempt).isSome then
          [Event.persist (fetchU attempt) (fetchO attempt)]
        else processLoop account fetchO fetchU rest) := by
    intro attempt rest
    simp [processLoop, hv]
  have hrange : process_account account fetchO fetchU =
      processLoop account fetchO fetchU [0, 1, 2] := rfl
  refine ⟨?_, ?_, ?_⟩
  · intro k hk hfail hsucc
    have hcond : ((fetchO k).isSome || (fetchU k).isSome) = true := by
      rcases hsucc with h | h <;> simp [h]
    have hk' : k < 3 := hk
    interval_cases k
    · rw [hrange, hstep 0 [1, 2], hcond]
      simp [show List.range 1 = [0] from by decide]
    · have hf0 := hfail 0 (by omega)
      have hc0 : ((fetchO 0).isSome || (fetchU 0).isSome) = false := by
        simp [hf0.1, hf0.2]
      rw [hrange, hstep 0 [1, 2], hc0, hstep 1 [2], hcond]
      simp [show List.range 2 = [0, 1] from by decide]
    · have hf0 := hfail 0 (by omega)
      have hf1 := hfail 1 (by decide)
      have hc0 : ((fetchO 0).isSome || (fetchU 0).isSome) = false := by
        simp [hf0.1, hf0.2]
      have hc1 : ((fetchO 1).isSome || (fetchU 1).isSome) = false := by
        simp [hf1.1, hf1.2]
      rw [hrange, hstep 0 [1, 2], hc0, hstep 1 [2], hc1, hstep 2 [], hcond]
      simp [show List.range 3 = [0, 1, 2] from by decide]
  · intro hfail
    have hc : ∀ i, i < max_retries →
        ((fetchO i).isSome || (fetchU i).isSome) = false := by
      intro i hi
      have := hfail i hi
      simp [this.1, this.2]
    rw [hrange, hstep 0 [1, 2], hc 0 (by decide), hstep 1 [2], hc 1 (by decide),
      hstep 2 [], hc 2 (by decide)]
    rfl
  · by_cases hc0 : ((fetchO 0).isSome || (fetchU 0).isSome) = true
    · rw [hrange, hstep 0 [1, 2], hc0]
      simp [List.countP_cons]
    · by_cases hc1 : ((fetchO 1).isSome || (fetchU 1).isSome) = true
      · rw [hrange, hstep 0 [1, 2], Bool.of_not_eq_true hc0, hstep 1 [2], hc1]
        simp [List.countP_cons]
      · by_cases hc2 : ((fetchO 2).isSome || (fetchU 2).isSome) = true
        · rw [hrange, hstep 0 [1, 2], Bool.of_not_eq_true hc0, hstep 1 [2],
            Bool.of_not_eq_true hc1, hstep 2 [], hc2]
          simp [List.countP_cons]
        · rw [hrange, hstep 0 [1, 2], Bool.of_not_eq_true hc0, hstep 1 [2],
            Bool.of_not_eq_true hc1, hstep 2 [], Bool.of_not_eq_true hc2]
          simp [List.countP_cons, processLoop]

/-- Witness for `retry_policy`: two attempts where both fetches fail,
then the overview fetch succeeds on attempt 3 — one persist call at the
end, two fixed sleeps, three fetch pairs. -/
theorem retry_policy_witness :
    truthyStr (some "t") = true ∧
    process_account (Account.mk "a" (some "t") (some "u") (some "p"))
      (fun i => if i = 2 then some [("allTimeTotalReward", 5)] else none)
      (fun _ => none) =
      [Event.fetchOverview, Event.fetchEarnings,
        Event.sleep retry_delay, Event.fetchOverview, Event.fetchEarnings,
        Event.sleep retry_delay, Event.fetchOverview, Event.fetchEarnings,
        Event.persist none (some [("allTimeTotalReward", 5)])] :=
  ⟨rfl, by
    have h := (retry_policy (Account.mk "a" (some "t") (some "u") (some "p"))
      (fun i => if i = 2 then some [("allTimeTotalReward", 5)] else none)
      (fun _ => none) rfl rfl rfl).1 2 (by decide)
      (fun i hi => by interval_cases i <;> exact ⟨rfl, rfl⟩)
      (Or.inl (by rfl))
    rw [h]
    rfl⟩

end BlessPoints
